import Mathlib

/-!
# Verification of the Yotpo order-invalidator (`src/order-invalidator.js`)

A shallow embedding of the batch-invalidation orchestrator: the batch
partitioner `chunkArray`, the per-batch outcome classification, the
credential exchange `generateUToken`, the batch loop of
`invalidateOrdersInBatches`, the driver `startInvalidationProcess`, and the
progress estimator (`updateProgressUI` / `formatTime`).

Modelling conventions:
* Network effects are parameters: the outcome of the credential exchange is a
  `TokenFetchResult` value, and the outcome of the `i`-th batch call is
  `fetch i` for a function `fetch : Nat → FetchResult`.  Transport-level
  failure (a rejected `fetch` promise) is a constructor of these types, and a
  body that fails to parse as JSON is an `Except.error` payload.
* The mutable session variables of the JS loop become the record
  `SessionState`.  The `dispatched` field records the payload of every batch
  request actually sent, in order, so that statements about which batches
  were (or were never) dispatched are expressible.  The `log` field holds the
  messages passed to `logToScreen`, in order, without the wall-clock
  timestamp prefix; the final "Total time" line, which depends only on the
  wall clock, is likewise not modelled (time is not part of the embedding).
* JavaScript `||` on a possibly-absent string field treats both `undefined`
  and the empty string as falsy; `jsOrString` reproduces this.
* The JS numbers of the progress estimator are modelled over `ℚ`; the only
  non-finite values that can arise there (division by `current = 0`) are
  modelled by `Option.none`.
-/

namespace OrderInvalidator

/-- `BATCH_SIZE = 5000` (source line 29). -/
def BATCH_SIZE : Nat := 5000

/-- JavaScript `a || b` where `a` is a possibly-absent string field:
`undefined` and `""` are falsy and yield `b`; any other string is returned. -/
def jsOrString (a : Option String) (b : String) : String :=
  match a with
  | some s => if s = "" then b else s
  | none => b

/-- The loop of `chunkArray` (source lines 248–254): starting at index 0 it
repeatedly pushes `array.slice(i, i + size)` and advances `i` by `size`.
`fuel` bounds the number of remaining loop iterations; `chunkArray` passes
`array.length`, which suffices whenever `size ≥ 1` because each iteration
consumes at least one element.  (For `size = 0` the JS loop never terminates
on a nonempty array; the fuel simply runs out in the model.) -/
def chunkArrayAux (size : Nat) : Nat → List String → List (List String)
  | _, [] => []
  | 0, _ :: _ => []
  | fuel + 1, a => a.take size :: chunkArrayAux size fuel (a.drop size)

/-- `chunkArray(array, size)` (source lines 248–254). -/
def chunkArray (array : List String) (size : Nat) : List (List String) :=
  chunkArrayAux size array.length array

lemma chunkArrayAux_nil (size fuel : Nat) : chunkArrayAux size fuel [] = [] := by
  cases fuel <;> rfl

lemma chunkArrayAux_cons (size fuel : Nat) (a : String) (as : List String) :
    chunkArrayAux size (fuel + 1) (a :: as) =
      (a :: as).take size :: chunkArrayAux size fuel ((a :: as).drop size) := rfl

/-- With enough fuel, the fuel does not matter (for positive chunk size). -/
lemma chunkArrayAux_fuel (size : Nat) (hB : 0 < size) :
    ∀ fuel l, List.length l ≤ fuel →
      chunkArrayAux size fuel l = chunkArrayAux size l.length l := by
  intro fuel
  induction fuel using Nat.strong_induction_on with
  | _ fuel ih =>
    intro l hl
    match fuel, l with
    | fuel, [] => rw [chunkArrayAux_nil, chunkArrayAux_nil]
    | 0, a :: as => simp at hl
    | fuel + 1, a :: as =>
      have hlen : (a :: as).length = as.length + 1 := rfl
      have hd : ((a :: as).drop size).length = as.length + 1 - size := by
        simp [List.length_drop]
      have h1 : ((a :: as).drop size).length ≤ fuel := by
        rw [hd]; simp [hlen] at hl; omega
      have h2 : ((a :: as).drop size).length ≤ as.length := by
        rw [hd]; omega
      rw [hlen, chunkArrayAux_cons, chunkArrayAux_cons,
        ih fuel (Nat.lt_succ_self fuel) _ h1,
        ih as.length (by omega) _ h2]

/-- Unfolding equation of `chunkArray` on a nonempty list, for `size ≥ 1`. -/
lemma chunkArray_cons (size : Nat) (hB : 0 < size) (l : List String) (hl : l ≠ []) :
    chunkArray l size = l.take size :: chunkArray (l.drop size) size := by
  obtain ⟨a, as, rfl⟩ := List.exists_cons_of_ne_nil hl
  show chunkArrayAux size (as.length + 1) (a :: as) = _
  rw [chunkArrayAux_cons,
    chunkArrayAux_fuel size hB as.length _ (by simp [List.length_drop]; omega)]
  rfl

lemma chunkArray_nil (size : Nat) : chunkArray [] size = [] := rfl

/-- Concatenating the chunks restores the original list. -/
lemma chunkArray_flatten (size : Nat) (hB : 0 < size) (l : List String) :
    (chunkArray l size).flatten = l := by
  suffices h : ∀ (n : Nat) (l : List String), l.length = n →
      (chunkArray l size).flatten = l from h l.length l rfl
  intro n
  induction n using Nat.strong_induction_on with
  | _ n ih =>
    intro l hn
    cases l with
    | nil => simp [chunkArray_nil]
    | cons a as =>
      rw [chunkArray_cons size hB _ (by simp)]
      have hlt : ((a :: as).drop size).length < n := by
        rw [← hn]; simp [List.length_drop]; omega
      rw [List.flatten_cons, ih _ hlt _ rfl, List.take_append_drop]

/-- The chunk lengths sum to the length of the original list. -/
lemma chunkArray_sum_lengths (size : Nat) (hB : 0 < size) (l : List String) :
    ((chunkArray l size).map List.length).sum = l.length := by
  suffices h : ∀ (n : Nat) (l : List String), l.length = n →
      ((chunkArray l size).map List.length).sum = l.length from h l.length l rfl
  intro n
  induction n using Nat.strong_induction_on with
  | _ n ih =>
    intro l hn
    cases l with
    | nil => simp [chunkArray_nil]
    | cons a as =>
      rw [chunkArray_cons size hB _ (by simp)]
      have hlt : ((a :: as).drop size).length < n := by
        rw [← hn]; simp [List.length_drop]; omega
      subst hn
      rw [List.map_cons, List.sum_cons, ih _ hlt _ rfl]
      simp [List.length_take, List.length_drop]
      omega

/-- The number of chunks is `⌈n / size⌉`. -/
lemma chunkArray_length (size : Nat) (hB : 0 < size) (l : List String) :
    (chunkArray l size).length = (l.length + size - 1) / size := by
  suffices h : ∀ (n : Nat) (l : List String), l.length = n →
      (chunkArray l size).length = (l.length + size - 1) / size from h l.length l rfl
  intro n
  induction n using Nat.strong_induction_on with
  | _ n ih =>
    intro l hn
    cases l with
    | nil =>
      subst hn
      rw [chunkArray_nil]
      simp only [List.length_nil, Nat.zero_add]
      exact (Nat.div_eq_of_lt (by omega)).symm
    | cons a as =>
      rw [chunkArray_cons size hB _ (by simp)]
      have hlt : ((a :: as).drop size).length < n := by
        rw [← hn]; simp [List.length_drop]; omega
      subst hn
      simp only [List.length_cons]
      rw [ih _ hlt _ rfl]
      have hlen : ((a :: as).drop size).length = as.length + 1 - size := by
        simp [List.length_drop]
      rw [hlen]
      rcases Nat.le_total (as.length + 1) size with hle | hle
      · have h1 : as.length + 1 - size = 0 := by omega
        rw [h1]
        have h2 : (0 + size - 1) / size = 0 := Nat.div_eq_of_lt (by omega)
        rw [h2]
        exact (Nat.div_eq_of_lt_le (by omega) (by omega)).symm
      · have h1 : as.length + 1 + size - 1 = (as.length + 1 - size + size - 1) + size := by
          omega
        rw [h1, Nat.add_div_right _ hB]

/-- Every chunk except possibly the last has length exactly `size`. -/
lemma chunkArray_dropLast_length (size : Nat) (hB : 0 < size) (l : List String) :
    ∀ c ∈ (chunkArray l size).dropLast, c.length = size := by
  suffices h : ∀ (n : Nat) (l : List String), l.length = n →
      ∀ c ∈ (chunkArray l size).dropLast, c.length = size from h l.length l rfl
  intro n
  induction n using Nat.strong_induction_on with
  | _ n ih =>
    intro l hn
    cases l with
    | nil => simp [chunkArray_nil]
    | cons a as =>
      rw [chunkArray_cons size hB _ (by simp)]
      have hlt : ((a :: as).drop size).length < n := by
        rw [← hn]; simp [List.length_drop]; omega
      intro c hc
      cases hrest : chunkArray ((a :: as).drop size) size with
      | nil => rw [hrest] at hc; simp at hc
      | cons y ys =>
        rw [hrest] at hc
        rw [List.dropLast_cons₂] at hc
        rcases List.mem_cons.mp hc with rfl | hc
        · -- the head chunk is followed by more chunks, so the list had > size elements
          have hne : ((a :: as).drop size) ≠ [] := by
            intro hnil
            rw [hnil, chunkArray_nil] at hrest
            exact List.noConfusion hrest
          have hgt : size < (a :: as).length := by
            by_contra hcon
            push_neg at hcon
            exact hne (List.drop_eq_nil_of_le hcon)
          exact List.length_take_of_le (le_of_lt hgt)
        · have := ih _ hlt _ rfl
          rw [hrest] at this
          exact this c hc

/-- The final chunk holds the remainder: `n % size` elements, or `size` when
`size` divides `n` (and the list is nonempty). -/
lemma chunkArray_getLast_length (size : Nat) (hB : 0 < size) (l : List String) :
    ∀ c, (chunkArray l size).getLast? = some c →
      c.length = if l.length % size = 0 then size else l.length % size := by
  suffices h : ∀ (n : Nat) (l : List String), l.length = n →
      ∀ c, (chunkArray l size).getLast? = some c →
        c.length = if l.length % size = 0 then size else l.length % size from
    h l.length l rfl
  intro n
  induction n using Nat.strong_induction_on with
  | _ n ih =>
    intro l hn
    cases l with
    | nil => intro c hc; rw [chunkArray_nil] at hc; simp at hc
    | cons a as =>
      intro c hc
      rw [chunkArray_cons size hB _ (by simp)] at hc
      have hlt : ((a :: as).drop size).length < n := by
        rw [← hn]; simp [List.length_drop]; omega
      cases hrest : chunkArray ((a :: as).drop size) size with
      | nil =>
        -- single chunk: the whole list fits in one slice
        rw [hrest] at hc
        rw [List.getLast?_singleton] at hc
        have hne : ((a :: as).drop size) = [] := by
          by_contra hcon
          rw [chunkArray_cons size hB _ hcon] at hrest
          exact List.noConfusion hrest
        have hle : (a :: as).length ≤ size := by
          by_contra hcon
          push_neg at hcon
          have h0 : ((a :: as).drop size).length = 0 := by rw [hne]; rfl
          rw [List.length_drop] at h0
          omega
        have htake : (a :: as).take size = a :: as := List.take_of_length_le hle
        rw [htake] at hc
        subst hn
        rw [Option.some_inj] at hc
        rw [← hc]
        rcases Nat.lt_or_ge (a :: as).length size with hltc | hgec
        · rw [if_neg (by rw [Nat.mod_eq_of_lt hltc]; simp), Nat.mod_eq_of_lt hltc]
        · have heq : (a :: as).length = size := le_antisymm hle hgec
          rw [heq, if_pos (Nat.mod_self size)]
      | cons y ys =>
        rw [hrest] at hc
        rw [List.getLast?_cons_cons] at hc
        have hres := ih _ hlt _ rfl c (by rw [hrest]; exact hc)
        have hne : ((a :: as).drop size) ≠ [] := by
          intro hnil
          rw [hnil, chunkArray_nil] at hrest
          exact List.noConfusion hrest
        have hgt : size ≤ (a :: as).length := by
          by_contra hcon
          push_neg at hcon
          exact hne (List.drop_eq_nil_of_le (le_of_lt hcon))
        have e1 : (a :: as).length = ((a :: as).drop size).length + size := by
          rw [List.length_drop]
          omega
        have hmod : ((a :: as).drop size).length % size = (a :: as).length % size := by
          rw [e1, Nat.add_mod_right]
        subst hn
        rw [hres, hmod]

/-! ## Batch executor: one remote delete call and its classification -/

/-- The parsed JSON body of a failed batch response, as the code reads it:
`errorData.error` and `errorData.status?.message` (source line 174).
A field that is absent (or an absent nested object) is `none`. -/
structure ErrorBody where
  error : Option String
  statusMessage : Option String
deriving DecidableEq

deriving instance DecidableEq for Except

/-- The observable outcome of one batch `fetch` call: either the promise
rejected at the transport level (the `catch (networkError)` arm, source
lines 178–181), or a response arrived with an HTTP status and a body that
either parses as JSON or does not (`response.json().catch(() => ({}))`,
source line 173). -/
inductive FetchResult where
  | transportError (message : String)
  | response (status : Nat) (body : Except Unit ErrorBody)
deriving DecidableEq

/-- Result of one Batch Executor call (spec §3 `BatchOutcome`). -/
inductive BatchOutcome where
  | succeeded (count : Nat)
  | failed (count : Nat) (reason : String)
deriving DecidableEq

/-- `errorData.error || errorData.status?.message || `HTTP ${response.status}``
(source lines 173–174).  A body that failed to parse is replaced by `{}`
(both fields absent) by the `.catch(() => ({}))`. -/
def extractErrorMessage (body : Except Unit ErrorBody) (status : Nat) : String :=
  let errorData : ErrorBody :=
    match body with
    | .ok b => b
    | .error _ => ⟨none, none⟩
  jsOrString errorData.error
    (jsOrString errorData.statusMessage ("HTTP " ++ toString status))

/-- Classification of one batch call (source lines 159–181): status 200 or
204 counts the whole batch as succeeded; any other status counts it as
failed with the extracted message; a transport failure counts it as failed
with the network error message. -/
def executeBatch (batch : List String) (fr : FetchResult) : BatchOutcome :=
  match fr with
  | .response status body =>
    if status = 200 ∨ status = 204 then .succeeded batch.length
    else .failed batch.length (extractErrorMessage body status)
  | .transportError m => .failed batch.length ("Network error: " ++ m)

/-! ## Invalidation session: state and driver loop -/

/-- The mutable variables of `invalidateOrdersInBatches` (source lines
140–143) together with two observables: `dispatched` records the payload of
every batch request actually sent, in order, and `log` records the messages
passed to `logToScreen`, in order (without wall-clock timestamps). -/
structure SessionState where
  totalSuccessCount : Nat
  totalFailCount : Nat
  processedIdCount : Nat
  dispatched : List (List String)
  log : List String
deriving DecidableEq

/-- One non-cancelled iteration of the batch loop (source lines 153–184):
log the batch header, send the batch, classify the outcome, update the
counters and write the per-batch log line.  `i` is the 0-based loop index,
`totalChunks` the number of chunks (used only in the log text). -/
def processBatch (fetch : Nat → FetchResult) (totalChunks i : Nat)
    (batch : List String) (st : SessionState) : SessionState :=
  let st1 : SessionState :=
    { st with
      log := st.log ++
        ["Processing Batch " ++ toString (i + 1) ++ "/" ++ toString totalChunks ++ "..."],
      dispatched := st.dispatched ++ [batch] }
  match executeBatch batch (fetch i) with
  | .succeeded c =>
    { st1 with
      log := st1.log ++
        ["✅ SUCCESS: Batch " ++ toString (i + 1) ++ " invalidated successfully."],
      totalSuccessCount := st1.totalSuccessCount + c,
      processedIdCount := st1.processedIdCount + c }
  | .failed c reason =>
    { st1 with
      log := st1.log ++ ["FAILED: Batch " ++ toString (i + 1) ++ " - " ++ reason],
      totalFailCount := st1.totalFailCount + c,
      processedIdCount := st1.processedIdCount + c }

/-- The batch loop (source lines 147–186).  Before each batch the
cancellation flag is read (`cancelled i` is its value at the check preceding
the batch with 0-based index `i`); if set, the loop stops without
dispatching the remaining batches.  The inter-batch pacing delay has no
state effect and is not modelled. -/
def runLoop (fetch : Nat → FetchResult) (cancelled : Nat → Bool) (totalChunks : Nat) :
    List (List String) → Nat → SessionState → SessionState
  | [], _, st => st
  | batch :: rest, i, st =>
    if cancelled i then
      { st with log := st.log ++ ["Process cancelled by user."] }
    else
      runLoop fetch cancelled totalChunks rest (i + 1) (processBatch fetch totalChunks i batch st)

/-- `invalidateOrdersInBatches` (source lines 136–192): partition the ids
with `chunkArray`, run the loop from a zeroed state, then write the closing
summary.  (The "Total time" line depends only on the wall clock and is not
modelled.) -/
def invalidateOrdersInBatches (fetch : Nat → FetchResult) (cancelled : Nat → Bool)
    (allOrderIds : List String) : SessionState :=
  let orderIdChunks := chunkArray allOrderIds BATCH_SIZE
  let st0 : SessionState :=
    { totalSuccessCount := 0
      totalFailCount := 0
      processedIdCount := 0
      dispatched := []
      log := ["Step 2: Starting invalidation for " ++ toString allOrderIds.length ++
              " orders in batches of " ++ toString BATCH_SIZE ++ "..."] }
  let stEnd := runLoop fetch cancelled orderIdChunks.length orderIdChunks 0 st0
  { stEnd with
    log := stEnd.log ++
      ["--- PROCESSING COMPLETE ---",
       "Summary: " ++ toString stEnd.totalSuccessCount ++ " succeeded, " ++
         toString stEnd.totalFailCount ++ " failed."] }

/-! ## Credential acquirer -/

/-- The parsed JSON body of the token response: `data.error_description` and
`data.access_token` as the code reads them (source lines 121–125). -/
structure TokenBody where
  error_description : Option String
  access_token : Option String
deriving DecidableEq

/-- The observable outcome of the credential-exchange `fetch` (source lines
111–119): transport failure, or a response with an HTTP status, a status
text, and a body that parses as JSON or fails to parse (the parse error
message is carried, since `response.json()` has no `catch` here and its
rejection propagates). -/
inductive TokenFetchResult where
  | transportError (message : String)
  | response (status : Nat) (statusText : String) (body : Except String TokenBody)
deriving DecidableEq

/-- `generateUToken` (source lines 108–131).  `response.ok` is HTTP status
in 200–299.  Note the code parses the body *before* checking `ok`, so an
unparseable body makes the parse error propagate regardless of status.
JS falsiness makes an `""` token count as missing. -/
def generateUToken (tfr : TokenFetchResult) : Except String String :=
  match tfr with
  | .transportError m => .error m
  | .response status statusText body =>
    match body with
    | .error parseMsg => .error parseMsg
    | .ok data =>
      if 200 ≤ status ∧ status ≤ 299 then
        match data.access_token with
        | none => .error "Token not found in authentication response."
        | some t =>
          if t = "" then .error "Token not found in authentication response." else .ok t
      else
        .error ("Token generation failed: " ++ jsOrString data.error_description statusText)

/-- Observable result of `startInvalidationProcess` (source lines 81–102):
either the input validation `alert` fired (before any session work), or the
credential phase failed with a logged critical error (and the batch phase
never ran), or the batch phase ran to its end state. -/
structure ProcessResult where
  alertMessage : Option String
  criticalError : Option String
  session : Option SessionState
deriving DecidableEq

/-- The batches actually sent during the whole process: none at all unless
the batch phase was reached. -/
def ProcessResult.dispatchedBatches (r : ProcessResult) : List (List String) :=
  match r.session with
  | none => []
  | some st => st.dispatched

/-- `startInvalidationProcess` (source lines 81–102): validate the inputs,
exchange the credential, and only on success run the batch phase.  A
credential error is caught and logged as `❌ CRITICAL ERROR: <message>`. -/
def startInvalidationProcess (appKey secretKey : String) (allOrderIds : List String)
    (tokenFetch : TokenFetchResult) (fetch : Nat → FetchResult)
    (cancelled : Nat → Bool) : ProcessResult :=
  if allOrderIds.length = 0 then
    { alertMessage := some "Please paste or import at least one Order ID."
      criticalError := none, session := none }
  else if appKey = "" ∨ secretKey = "" then
    { alertMessage := some "Please provide both an App Key and a Secret Key."
      criticalError := none, session := none }
  else
    match generateUToken tokenFetch with
    | .error e =>
      { alertMessage := none
        criticalError := some ("❌ CRITICAL ERROR: " ++ e)
        session := none }
    | .ok _uToken =>
      { alertMessage := none
        criticalError := none
        session := some (invalidateOrdersInBatches fetch cancelled allOrderIds) }

/-! ## Progress estimator -/

/-- Floor of a rational, computably (`q.den` is always positive, so
Euclidean division of the numerator is the floor). -/
def ratFloor (q : ℚ) : ℤ := Int.ediv q.num q.den

/-- JavaScript `Math.round`: round half toward positive infinity. -/
def jsRound (q : ℚ) : ℤ := ratFloor (q + 1 / 2)

/-- The ETA computation of `updateProgressUI` (source lines 275–277):
`timePerItem = elapsed / current; etrMs = (total - current) * timePerItem`.
When `current = 0` the JS division yields a non-finite number (`Infinity`,
or `NaN` after the multiplication), modelled as `none`. -/
def computeEtrMs (current total : Nat) (elapsedMs : ℚ) : Option ℚ :=
  if current = 0 then none
  else some (((total : ℚ) - (current : ℚ)) * (elapsedMs / (current : ℚ)))

/-- `formatTime` (source lines 288–295): negative or non-finite input is
"N/A"; otherwise round to seconds and display minutes and seconds.  On the
nonnegative values reaching them, `Math.floor` and JS `%` agree with `Int`
Euclidean division and remainder. -/
def formatTime (msOpt : Option ℚ) : String :=
  match msOpt with
  | none => "N/A"
  | some ms =>
    if ms < 0 then "N/A"
    else
      let seconds0 : ℤ := jsRound (ms / 1000)
      let minutes : ℤ := Int.ediv seconds0 60
      let seconds : ℤ := Int.emod seconds0 60
      (if 0 < minutes then toString minutes ++ "m " else "") ++ toString seconds ++ "s"

/-- The two strings produced by `updateProgressUI` (source lines 271–279):
the progress text and the estimated-time-remaining text.  (All calls in the
source have `total ≥ 1` and `current ≥ 1`.) -/
def updateProgressUI (current total : Nat) (elapsedMs : ℚ) : String × String :=
  let percentage : ℚ := (current : ℚ) / (total : ℚ) * 100
  (toString current ++ "/" ++ toString total ++
     " (" ++ toString (jsRound percentage) ++ "%)",
   "Est. time remaining: " ++ formatTime (computeEtrMs current total elapsedMs))

/-! ## Substring test (for statements about what the log mentions) -/

/-- `charsHasPrefixAt pat l`: the character list `pat` starts the list `l`. -/
def charsHasPrefixAt : List Char → List Char → Bool
  | [], _ => true
  | _ :: _, [] => false
  | p :: ps, c :: cs => p == c && charsHasPrefixAt ps cs

/-- `charsContains pat l`: `pat` occurs contiguously somewhere in `l`. -/
def charsContains (pat : List Char) : List Char → Bool
  | [] => charsHasPrefixAt pat []
  | c :: cs => charsHasPrefixAt pat (c :: cs) || charsContains pat cs

/-- `stringMentions needle hay`: `needle` occurs as a substring of `hay`. -/
def stringMentions (needle hay : String) : Bool :=
  charsContains needle.data hay.data

/-! ## Helper lemmas about the executor and the loop -/

/-- Every executor call yields a `BatchOutcome` counting the whole batch. -/
lemma executeBatch_count (batch : List String) (fr : FetchResult) :
    executeBatch batch fr = .succeeded batch.length ∨
      ∃ m, executeBatch batch fr = .failed batch.length m := by
  cases fr with
  | transportError m => exact Or.inr ⟨_, rfl⟩
  | response status body =>
    by_cases h : status = 200 ∨ status = 204
    · exact Or.inl (by simp [executeBatch, h])
    · exact Or.inr ⟨extractErrorMessage body status, by simp [executeBatch, h]⟩

lemma processBatch_dispatched (fetch : Nat → FetchResult) (tc i : Nat)
    (batch : List String) (st : SessionState) :
    (processBatch fetch tc i batch st).dispatched = st.dispatched ++ [batch] := by
  cases h : executeBatch batch (fetch i) <;> simp [processBatch, h]

lemma processBatch_processed (fetch : Nat → FetchResult) (tc i : Nat)
    (batch : List String) (st : SessionState) :
    (processBatch fetch tc i batch st).processedIdCount =
      st.processedIdCount + batch.length := by
  rcases executeBatch_count batch (fetch i) with h | ⟨m, h⟩ <;> simp [processBatch, h]

/-- Each processed batch adds its full size to exactly one of the two
counters and leaves the other unchanged. -/
lemma processBatch_success_or_fail (fetch : Nat → FetchResult) (tc i : Nat)
    (batch : List String) (st : SessionState) :
    ((processBatch fetch tc i batch st).totalSuccessCount =
        st.totalSuccessCount + batch.length ∧
      (processBatch fetch tc i batch st).totalFailCount = st.totalFailCount) ∨
    ((processBatch fetch tc i batch st).totalSuccessCount = st.totalSuccessCount ∧
      (processBatch fetch tc i batch st).totalFailCount =
        st.totalFailCount + batch.length) := by
  rcases executeBatch_count batch (fetch i) with h | ⟨m, h⟩
  · exact Or.inl (by simp [processBatch, h])
  · exact Or.inr (by simp [processBatch, h])

/-- A loop that is never cancelled dispatches every chunk, in order. -/
lemma runLoop_nocancel_dispatched (fetch : Nat → FetchResult) (tc : Nat) :
    ∀ (chunks : List (List String)) (i : Nat) (st : SessionState),
      (runLoop fetch (fun _ => false) tc chunks i st).dispatched =
        st.dispatched ++ chunks := by
  intro chunks
  induction chunks with
  | nil => intro i st; simp [runLoop]
  | cons b rest ih =>
    intro i st
    show (runLoop fetch (fun _ => false) tc rest (i + 1)
        (processBatch fetch tc i b st)).dispatched = _
    rw [ih, processBatch_dispatched]
    simp

/-- The session invariant `processed = succeeded + failed` is preserved by
the loop, whatever the fetch outcomes and the cancellation schedule. -/
lemma runLoop_invariant (fetch : Nat → FetchResult) (cancelled : Nat → Bool) (tc : Nat) :
    ∀ (chunks : List (List String)) (i : Nat) (st : SessionState),
      st.processedIdCount = st.totalSuccessCount + st.totalFailCount →
      (runLoop fetch cancelled tc chunks i st).processedIdCount =
        (runLoop fetch cancelled tc chunks i st).totalSuccessCount +
          (runLoop fetch cancelled tc chunks i st).totalFailCount := by
  intro chunks
  induction chunks with
  | nil => intro i st h; simpa [runLoop] using h
  | cons b rest ih =>
    intro i st h
    by_cases hc : cancelled i
    · simpa [runLoop, hc] using h
    · rw [show runLoop fetch cancelled tc (b :: rest) i st =
          runLoop fetch cancelled tc rest (i + 1) (processBatch fetch tc i b st) by
        simp [runLoop, hc]]
      apply ih
      rw [processBatch_processed]
      rcases processBatch_success_or_fail fetch tc i b st with ⟨h1, h2⟩ | ⟨h1, h2⟩ <;>
        rw [h1, h2] <;> omega

/-- If the cancellation flag first reads true at the check preceding the
batch with 0-based index `i + k`, the run equals the never-cancelled run
over the first `k` chunks, plus the cancellation log line. -/
lemma runLoop_cancel_at (fetch : Nat → FetchResult) (cancelled : Nat → Bool) (tc : Nat) :
    ∀ (k : Nat) (chunks : List (List String)) (i : Nat) (st : SessionState),
      k < chunks.length →
      (∀ j, j < k → cancelled (i + j) = false) →
      cancelled (i + k) = true →
      runLoop fetch cancelled tc chunks i st =
        { runLoop fetch (fun _ => false) tc (chunks.take k) i st with
          log := (runLoop fetch (fun _ => false) tc (chunks.take k) i st).log ++
            ["Process cancelled by user."] } := by
  intro k
  induction k with
  | zero =>
    intro chunks i st hk hbef hat
    cases chunks with
    | nil => simp at hk
    | cons b rest =>
      have hci : cancelled i = true := by simpa using hat
      simp [runLoop, hci]
  | succ k ih =>
    intro chunks i st hk hbef hat
    cases chunks with
    | nil => simp at hk
    | cons b rest =>
      have hci : cancelled i = false := by simpa using hbef 0 (Nat.succ_pos k)
      rw [List.take_succ_cons]
      show runLoop fetch cancelled tc (b :: rest) i st = _
      rw [show runLoop fetch cancelled tc (b :: rest) i st =
          runLoop fetch cancelled tc rest (i + 1) (processBatch fetch tc i b st) by
        simp [runLoop, hci]]
      rw [show runLoop fetch (fun _ => false) tc (b :: rest.take k) i st =
          runLoop fetch (fun _ => false) tc (rest.take k) (i + 1)
            (processBatch fetch tc i b st) from rfl]
      exact ih rest (i + 1) (processBatch fetch tc i b st)
        (by simpa using hk)
        (fun j hj => by
          have h2 := hbef (j + 1) (by omega)
          rw [show i + (j + 1) = i + 1 + j by omega] at h2
          exact h2)
        (by
          have h2 := hat
          rw [show i + (k + 1) = i + 1 + k by omega] at h2
          exact h2)

lemma getLast?_append_pair (l : List String) (a b : String) :
    (l ++ [a, b]).getLast? = some b := by
  rw [show l ++ [a, b] = (l ++ [a]) ++ [b] by simp]
  exact List.getLast?_concat _

/-- A string ending in `"s"` is never the string `"N/A"`. -/
lemma append_s_ne_NA (x : String) : x ++ "s" ≠ "N/A" := by
  intro hcon
  have h1 : (x ++ "s").data.getLast? = ("N/A" : String).data.getLast? := by rw [hcon]
  rw [String.data_append] at h1
  have hs : ("s" : String).data = ['s'] := rfl
  rw [hs, List.getLast?_concat _] at h1
  have hna : ("N/A" : String).data.getLast? = some 'A' := rfl
  rw [hna] at h1
  exact absurd h1 (by decide)

/-! ## Claim theorems -/

/-- C1: for every identifier list of length `n` and chunk size `B > 0`,
`chunkArray` yields `⌈n/B⌉` batches whose lengths sum to `n` and whose
in-order concatenation equals the original list, every batch of length
exactly `B` except the final one, which holds the remainder (`n % B`, or
`B` when the remainder is zero and `n > 0`). -/
theorem chunkArray_partition_spec (l : List String) (B : Nat) (hB : 0 < B) :
    (chunkArray l B).length = (l.length + B - 1) / B ∧
    ((chunkArray l B).map List.length).sum = l.length ∧
    (chunkArray l B).flatten = l ∧
    (∀ c ∈ (chunkArray l B).dropLast, c.length = B) ∧
    (∀ c, (chunkArray l B).getLast? = some c →
      c.length = if l.length % B = 0 then B else l.length % B) :=
  ⟨chunkArray_length B hB l, chunkArray_sum_lengths B hB l, chunkArray_flatten B hB l,
    chunkArray_dropLast_length B hB l, chunkArray_getLast_length B hB l⟩

theorem chunkArray_partition_spec_witness :
    (chunkArray ["a", "b", "c", "d", "e"] 2).flatten = ["a", "b", "c", "d", "e"] ∧
    (chunkArray ["a", "b", "c", "d", "e"] 2).length = 3 :=
  ⟨(chunkArray_partition_spec ["a", "b", "c", "d", "e"] 2 (by decide)).2.2.1, by decide⟩

/-- C9: the partitioner is deterministic (equal inputs give equal outputs)
and, being a pure function of its input, leaves the input recoverable:
re-partitioning the concatenation of its output reproduces the same batch
boundaries. -/
theorem chunkArray_deterministic_pure (a₁ a₂ : List String) (s₁ s₂ : Nat)
    (ha : a₁ = a₂) (hs : s₁ = s₂) :
    chunkArray a₁ s₁ = chunkArray a₂ s₂ ∧
    (0 < s₁ → chunkArray ((chunkArray a₁ s₁).flatten) s₁ = chunkArray a₁ s₁) := by
  subst ha
  subst hs
  exact ⟨rfl, fun h => by rw [chunkArray_flatten s₁ h a₁]⟩

theorem chunkArray_deterministic_pure_witness :
    chunkArray ["x", "y", "z"] 2 = chunkArray ["x", "y", "z"] 2 ∧
    chunkArray ((chunkArray ["x", "y", "z"] 2).flatten) 2 = chunkArray ["x", "y", "z"] 2 :=
  ⟨(chunkArray_deterministic_pure ["x", "y", "z"] ["x", "y", "z"] 2 2 rfl rfl).1,
    (chunkArray_deterministic_pure ["x", "y", "z"] ["x", "y", "z"] 2 2 rfl rfl).2 (by decide)⟩

/-- C7: the chunk size the session hands to the partitioner is the positive
constant `BATCH_SIZE`, so the partitioner is never invoked with a
non-positive chunk size, and with it the loop runs without a mid-loop
fault: the dispatched batches are exactly the `chunkArray` partition, whose
concatenation is the full identifier list. -/
theorem batch_size_positive_no_fault :
    0 < BATCH_SIZE ∧
    (∀ (fetch : Nat → FetchResult) (ids : List String),
      (invalidateOrdersInBatches fetch (fun _ => false) ids).dispatched =
        chunkArray ids BATCH_SIZE) ∧
    (∀ ids : List String, (chunkArray ids BATCH_SIZE).flatten = ids) := by
  refine ⟨by decide, ?_, ?_⟩
  · intro fetch ids
    show (runLoop fetch (fun _ => false) (chunkArray ids BATCH_SIZE).length
        (chunkArray ids BATCH_SIZE) 0 _).dispatched = _
    rw [runLoop_nocancel_dispatched]
    rfl
  · intro ids
    exact chunkArray_flatten BATCH_SIZE (by decide) ids

/-- C2: if the cancellation flag reads false at the checks before batches
1..k and true at the check before batch k+1, then exactly the first `k`
batches are dispatched (none after them), and the final success, failure
and processed counts are those of a run over just the first `k` batches —
every batch that was dispatched is fully counted, none is aborted. -/
theorem cancellation_stops_after_k_batches
    (fetch : Nat → FetchResult) (cancelled : Nat → Bool) (tc k : Nat)
    (chunks : List (List String)) (st : SessionState)
    (hk : k < chunks.length)
    (hbefore : ∀ j, j < k → cancelled j = false)
    (hat : cancelled k = true) :
    (runLoop fetch cancelled tc chunks 0 st).dispatched = st.dispatched ++ chunks.take k ∧
    (chunks.take k).length = k ∧
    (runLoop fetch cancelled tc chunks 0 st).totalSuccessCount =
      (runLoop fetch (fun _ => false) tc (chunks.take k) 0 st).totalSuccessCount ∧
    (runLoop fetch cancelled tc chunks 0 st).totalFailCount =
      (runLoop fetch (fun _ => false) tc (chunks.take k) 0 st).totalFailCount ∧
    (runLoop fetch cancelled tc chunks 0 st).processedIdCount =
      (runLoop fetch (fun _ => false) tc (chunks.take k) 0 st).processedIdCount := by
  have h := runLoop_cancel_at fetch cancelled tc k chunks 0 st hk
    (fun j hj => by simpa using hbefore j hj) (by simpa using hat)
  rw [h]
  refine ⟨?_, List.length_take_of_le (le_of_lt hk), rfl, rfl, rfl⟩
  show (runLoop fetch (fun _ => false) tc (chunks.take k) 0 st).dispatched = _
  rw [runLoop_nocancel_dispatched]

theorem cancellation_stops_after_k_batches_witness :
    (runLoop (fun _ => FetchResult.response 200 (.ok ⟨none, none⟩))
        (fun i => decide (1 ≤ i)) 3 [["a"], ["b"], ["c"]] 0
        ⟨0, 0, 0, [], []⟩).dispatched = [] ++ [["a"], ["b"], ["c"]].take 1 :=
  (cancellation_stops_after_k_batches (fun _ => FetchResult.response 200 (.ok ⟨none, none⟩))
    (fun i => decide (1 ≤ i)) 3 1 [["a"], ["b"], ["c"]] ⟨0, 0, 0, [], []⟩
    (by decide) (fun j hj => by interval_cases j; decide) (by decide)).1

/-- C4: every executor call returns a `BatchOutcome` covering the whole
batch — succeeded or failed, never an unhandled fault — and, cancellation
aside, the loop dispatches every batch in turn whatever the outcomes
(transport failure, bad status, unparseable body) of the previous ones. -/
theorem executor_total_loop_continues :
    (∀ (batch : List String) (fr : FetchResult),
      executeBatch batch fr = .succeeded batch.length ∨
        ∃ m, executeBatch batch fr = .failed batch.length m) ∧
    (∀ (fetch : Nat → FetchResult) (tc : Nat) (chunks : List (List String))
        (i : Nat) (st : SessionState),
      (runLoop fetch (fun _ => false) tc chunks i st).dispatched =
        st.dispatched ++ chunks) :=
  ⟨executeBatch_count, fun fetch tc chunks i st =>
    runLoop_nocancel_dispatched fetch tc chunks i st⟩

/-- C10: each processed batch adds its full size to the processed counter
and to exactly one of the success/failure counters; the invariant
`processed = succeeded + failed` is preserved through every iteration and
every cancellation schedule; and the final log line is always the summary
rendered from exactly the accumulated totals. -/
theorem counters_invariant_and_summary :
    (∀ (fetch : Nat → FetchResult) (tc i : Nat) (batch : List String) (st : SessionState),
      (processBatch fetch tc i batch st).processedIdCount =
          st.processedIdCount + batch.length ∧
      (((processBatch fetch tc i batch st).totalSuccessCount =
            st.totalSuccessCount + batch.length ∧
          (processBatch fetch tc i batch st).totalFailCount = st.totalFailCount) ∨
        ((processBatch fetch tc i batch st).totalSuccessCount = st.totalSuccessCount ∧
          (processBatch fetch tc i batch st).totalFailCount =
            st.totalFailCount + batch.length)) ∧
      (st.processedIdCount = st.totalSuccessCount + st.totalFailCount →
        (processBatch fetch tc i batch st).processedIdCount =
          (processBatch fetch tc i batch st).totalSuccessCount +
            (processBatch fetch tc i batch st).totalFailCount)) ∧
    (∀ (fetch : Nat → FetchResult) (cancelled : Nat → Bool) (tc : Nat)
        (chunks : List (List String)) (i : Nat) (st : SessionState),
      st.processedIdCount = st.totalSuccessCount + st.totalFailCount →
      (runLoop fetch cancelled tc chunks i st).processedIdCount =
        (runLoop fetch cancelled tc chunks i st).totalSuccessCount +
          (runLoop fetch cancelled tc chunks i st).totalFailCount) ∧
    (∀ (fetch : Nat → FetchResult) (cancelled : Nat → Bool) (ids : List String),
      (invalidateOrdersInBatches fetch cancelled ids).processedIdCount =
        (invalidateOrdersInBatches fetch cancelled ids).totalSuccessCount +
          (invalidateOrdersInBatches fetch cancelled ids).totalFailCount ∧
      (invalidateOrdersInBatches fetch cancelled ids).log.getLast? =
        some ("Summary: " ++
          toString (invalidateOrdersInBatches fetch cancelled ids).totalSuccessCount ++
          " succeeded, " ++
          toString (invalidateOrdersInBatches fetch cancelled ids).totalFailCount ++
          " failed.")) := by
  refine ⟨?_, runLoop_invariant, ?_⟩
  · intro fetch tc i batch st
    refine ⟨processBatch_processed fetch tc i batch st,
      processBatch_success_or_fail fetch tc i batch st, ?_⟩
    intro h
    rw [processBatch_processed]
    rcases processBatch_success_or_fail fetch tc i batch st with ⟨h1, h2⟩ | ⟨h1, h2⟩ <;>
      rw [h1, h2] <;> omega
  · intro fetch cancelled ids
    constructor
    · show (runLoop fetch cancelled (chunkArray ids BATCH_SIZE).length
          (chunkArray ids BATCH_SIZE) 0 _).processedIdCount = _
      exact runLoop_invariant fetch cancelled _ _ 0 _ rfl
    · exact getLast?_append_pair _ _ _

theorem counters_invariant_and_summary_witness :
    (runLoop (fun _ => FetchResult.transportError "down") (fun _ => false) 1
        [["a", "b"]] 0 ⟨0, 0, 0, [], []⟩).processedIdCount =
      (runLoop (fun _ => FetchResult.transportError "down") (fun _ => false) 1
          [["a", "b"]] 0 ⟨0, 0, 0, [], []⟩).totalSuccessCount +
        (runLoop (fun _ => FetchResult.transportError "down") (fun _ => false) 1
            [["a", "b"]] 0 ⟨0, 0, 0, [], []⟩).totalFailCount :=
  counters_invariant_and_summary.2.1 (fun _ => FetchResult.transportError "down")
    (fun _ => false) 1 [["a", "b"]] 0 ⟨0, 0, 0, [], []⟩ (by decide)

/-- C3: a batch call returning HTTP 200 or 204 is classified
`Succeeded(batchSize)`; any other status is `Failed(batchSize, message)`
where the message is the body's `error` field when present and nonempty,
else the nested `status.message` field when present and nonempty, else the
text rendering of the raw HTTP status; in particular HTTP 204 succeeds the
whole batch and HTTP 500 with body error `"rate limited"` fails the whole
batch with that message. -/
theorem executeBatch_classification (batch : List String) (status : Nat)
    (body : Except Unit ErrorBody) :
    ((status = 200 ∨ status = 204) →
      executeBatch batch (.response status body) = .succeeded batch.length) ∧
    (status ≠ 200 → status ≠ 204 → ∀ (e : String) (sm : Option String),
      body = .ok ⟨some e, sm⟩ → e ≠ "" →
      executeBatch batch (.response status body) = .failed batch.length e) ∧
    (status ≠ 200 → status ≠ 204 → ∀ (eo : Option String) (m : String),
      body = .ok ⟨eo, some m⟩ → (eo = none ∨ eo = some "") → m ≠ "" →
      executeBatch batch (.response status body) = .failed batch.length m) ∧
    (status ≠ 200 → status ≠ 204 →
      (body = .ok ⟨none, none⟩ ∨ body = .error ()) →
      executeBatch batch (.response status body) =
        .failed batch.length ("HTTP " ++ toString status)) ∧
    (∀ b2, executeBatch batch (.response 204 b2) = .succeeded batch.length) ∧
    (∀ sm, executeBatch batch (.response 500 (.ok ⟨some "rate limited", sm⟩)) =
      .failed batch.length "rate limited") := by
  refine ⟨?_, ?_, ?_, ?_, ?_, ?_⟩
  · intro h
    simp [executeBatch, h]
  · intro h200 h204 e sm hbody he
    subst hbody
    simp [executeBatch, h200, h204, extractErrorMessage, jsOrString, he]
  · intro h200 h204 eo m hbody heo hm
    subst hbody
    rcases heo with rfl | rfl <;>
      simp [executeBatch, h200, h204, extractErrorMessage, jsOrString, hm]
  · intro h200 h204 hbody
    rcases hbody with rfl | rfl <;>
      simp [executeBatch, h200, h204, extractErrorMessage, jsOrString]
  · intro b2
    simp [executeBatch]
  · intro sm
    simp [executeBatch, extractErrorMessage, jsOrString]

theorem executeBatch_classification_witness :
    executeBatch ["o1", "o2"] (.response 204 (.error ())) = .succeeded 2 ∧
    executeBatch ["o1", "o2"] (.response 500 (.ok ⟨some "rate limited", none⟩)) =
      .failed 2 "rate limited" := by
  constructor
  · have h := (executeBatch_classification ["o1", "o2"] 204 (.error ())).2.2.2.2.1 (.error ())
    simpa using h
  · have h := (executeBatch_classification ["o1", "o2"] 500
      (.ok ⟨some "rate limited", none⟩)).2.2.2.2.2 none
    simpa using h

/-- C5: when the credential exchange fails — transport failure,
non-success status, or a parsed response without a usable access token —
the run ends with no session loop and no batch dispatched, the critical
error carries the message of the failure, and the non-success-status
message carries the server-reported `error_description` whenever one is
available. -/
theorem credential_failure_no_batches
    (appKey secretKey : String) (ids : List String) (tfr : TokenFetchResult)
    (fetch : Nat → FetchResult) (cancelled : Nat → Bool) (e : String)
    (hkey : appKey ≠ "") (hsec : secretKey ≠ "") (hids : ids ≠ [])
    (hfail : generateUToken tfr = .error e) :
    (startInvalidationProcess appKey secretKey ids tfr fetch cancelled).session = none ∧
    (startInvalidationProcess appKey secretKey ids tfr fetch cancelled).dispatchedBatches
      = [] ∧
    (startInvalidationProcess appKey secretKey ids tfr fetch cancelled).criticalError =
      some ("❌ CRITICAL ERROR: " ++ e) ∧
    (∀ (status : Nat) (statusText desc : String) (tok : Option String),
      ¬(200 ≤ status ∧ status ≤ 299) → desc ≠ "" →
      generateUToken (.response status statusText (.ok ⟨some desc, tok⟩)) =
        .error ("Token generation failed: " ++ desc)) ∧
    (∀ (status : Nat) (statusText : String) (desc : Option String),
      200 ≤ status → status ≤ 299 →
      generateUToken (.response status statusText (.ok ⟨desc, none⟩)) =
        .error "Token not found in authentication response.") ∧
    (∀ m, generateUToken (.transportError m) = .error m) := by
  have hlen : ¬ ids.length = 0 := by simpa [List.length_eq_zero] using hids
  have hkeys : ¬(appKey = "" ∨ secretKey = "") := by
    intro h
    rcases h with h | h
    · exact hkey h
    · exact hsec h
  refine ⟨?_, ?_, ?_, ?_, ?_, ?_⟩
  · simp [startInvalidationProcess, hlen, hkeys, hfail]
  · simp [startInvalidationProcess, hlen, hkeys, hfail, ProcessResult.dispatchedBatches]
  · simp [startInvalidationProcess, hlen, hkeys, hfail]
  · intro status statusText desc tok hstat hdesc
    simp [generateUToken, hstat, jsOrString, hdesc]
  · intro status statusText desc h1 h2
    simp [generateUToken, h1, h2]
  · intro m
    rfl

theorem credential_failure_no_batches_witness :
    (startInvalidationProcess "app" "sec" ["o1"]
        (.response 401 "Unauthorized" (.ok ⟨some "bad creds", none⟩))
        (fun _ => FetchResult.response 200 (.ok ⟨none, none⟩)) (fun _ => false)).session
      = none ∧
    (startInvalidationProcess "app" "sec" ["o1"]
        (.response 401 "Unauthorized" (.ok ⟨some "bad creds", none⟩))
        (fun _ => FetchResult.response 200 (.ok ⟨none, none⟩))
        (fun _ => false)).criticalError =
      some ("❌ CRITICAL ERROR: " ++ "Token generation failed: bad creds") := by
  have h := credential_failure_no_batches "app" "sec" ["o1"]
    (.response 401 "Unauthorized" (.ok ⟨some "bad creds", none⟩))
    (fun _ => FetchResult.response 200 (.ok ⟨none, none⟩)) (fun _ => false)
    "Token generation failed: bad creds" (by decide) (by decide) (by decide) (by decide)
  exact ⟨h.1, h.2.2.1⟩

/-- C6: the ETA is reported as unavailable exactly when the processed count
is zero (the only source of a non-finite value in the computation);
otherwise the computed ETA value is exactly `(total - processed) *
(elapsed / processed)` and the reported string renders exactly that value,
which for a nonnegative value is never the unavailable marker. -/
theorem eta_spec (p n : Nat) (e : ℚ) :
    (p = 0 → computeEtrMs p n e = none ∧
      (updateProgressUI p n e).2 = "Est. time remaining: N/A") ∧
    (p ≠ 0 → computeEtrMs p n e = some (((n : ℚ) - (p : ℚ)) * (e / (p : ℚ)))) ∧
    (p ≠ 0 → (updateProgressUI p n e).2 =
      "Est. time remaining: " ++
        formatTime (some (((n : ℚ) - (p : ℚ)) * (e / (p : ℚ))))) ∧
    (∀ ms : ℚ, 0 ≤ ms → formatTime (some ms) ≠ "N/A") := by
  refine ⟨?_, ?_, ?_, ?_⟩
  · intro hp
    subst hp
    exact ⟨by simp [computeEtrMs], by simp [updateProgressUI, computeEtrMs, formatTime]⟩
  · intro hp
    simp [computeEtrMs, hp]
  · intro hp
    simp [updateProgressUI, computeEtrMs, hp]
  · intro ms hms hcon
    rw [show formatTime (some ms) =
        (if ms < 0 then "N/A"
         else
           (if 0 < Int.ediv (jsRound (ms / 1000)) 60 then
              toString (Int.ediv (jsRound (ms / 1000)) 60) ++ "m "
            else "") ++ toString (Int.emod (jsRound (ms / 1000)) 60) ++ "s") from rfl,
      if_neg (not_lt.mpr hms)] at hcon
    exact append_s_ne_NA _ hcon

theorem eta_spec_witness :
    computeEtrMs 0 5 1000 = none ∧
    (updateProgressUI 0 5 1000).2 = "Est. time remaining: N/A" ∧
    computeEtrMs 2 6 1000 = some ((((6 : Nat) : ℚ) - ((2 : Nat) : ℚ)) *
      ((1000 : ℚ) / ((2 : Nat) : ℚ))) := by
  refine ⟨((eta_spec 0 5 1000).1 rfl).1, ((eta_spec 0 5 1000).1 rfl).2, ?_⟩
  exact (eta_spec 2 6 1000).2.1 (by decide)

/-- C8 (counterexample): a run in which the single batch
`["ZZZ1", "ZZZ2"]` is dispatched and fails, yet no emitted log record
mentions either failed identifier — the code logs one `FAILED` line per
batch and accumulates no per-identifier information at all, contradicting
the claimed per-identifier diagnostic records. -/
theorem no_per_identifier_diagnostic :
    (invalidateOrdersInBatches (fun _ => .response 500 (.ok ⟨some "boom", none⟩))
        (fun _ => false) ["ZZZ1", "ZZZ2"]).dispatched = [["ZZZ1", "ZZZ2"]] ∧
    (invalidateOrdersInBatches (fun _ => .response 500 (.ok ⟨some "boom", none⟩))
        (fun _ => false) ["ZZZ1", "ZZZ2"]).totalFailCount = 2 ∧
    ((invalidateOrdersInBatches (fun _ => .response 500 (.ok ⟨some "boom", none⟩))
        (fun _ => false) ["ZZZ1", "ZZZ2"]).log.all
      (fun s => !(stringMentions "ZZZ1" s) && !(stringMentions "ZZZ2" s))) = true := by
  refine ⟨?_, ?_, ?_⟩ <;> decide

/-- C8 (amended): for every failed batch the session emits exactly one
diagnostic record, carrying the batch number and the failure message (after
the batch header line); failure bookkeeping is the aggregate counter only. -/
theorem failed_batch_single_diagnostic (fetch : Nat → FetchResult) (tc i : Nat)
    (batch : List String) (st : SessionState) (c : Nat) (reason : String)
    (h : executeBatch batch (fetch i) = .failed c reason) :
    (processBatch fetch tc i batch st).log = st.log ++
      ["Processing Batch " ++ toString (i + 1) ++ "/" ++ toString tc ++ "...",
       "FAILED: Batch " ++ toString (i + 1) ++ " - " ++ reason] ∧
    (processBatch fetch tc i batch st).totalFailCount =
      st.totalFailCount + batch.length := by
  rcases executeBatch_count batch (fetch i) with h2 | ⟨m, h2⟩
  · rw [h2] at h
    exact absurd h (by simp)
  · rw [h2] at h
    injection h with hc hm
    subst hm
    exact ⟨by simp [processBatch, h2], by simp [processBatch, h2]⟩

theorem failed_batch_single_diagnostic_witness :
    (processBatch (fun _ => FetchResult.transportError "down") 1 0 ["a", "b"]
        ⟨0, 0, 0, [], []⟩).log = [] ++
      ["Processing Batch " ++ toString (0 + 1) ++ "/" ++ toString 1 ++ "...",
       "FAILED: Batch " ++ toString (0 + 1) ++ " - " ++ "Network error: down"] :=
  (failed_batch_single_diagnostic (fun _ => FetchResult.transportError "down") 1 0
    ["a", "b"] ⟨0, 0, 0, [], []⟩ 2 "Network error: down" (by decide)).1

end OrderInvalidator
